import Mathlib

/-!
Verification of the HubSpot webhook sync server (`webhook_server.py`).

The development shallowly embeds the server's pure logic:

* `Value` models the scalar JSON values stored in a contact property set,
  with Python's truthiness (`Value.falsy`).
* Property sets are ordered association lists `List (String × Value)`;
  `dictInsert` models Python dict assignment (update in place, append if new).
* `map_properties_for_destination` embeds the field mapper.
* `sync_contact_to_partner` embeds the sync orchestrator; external HTTP
  effects are supplied by a `World` record and the calls issued are traced.
* `requestGo` / `HubSpotAPI.request` embed the client retry loop.
* `verify_hubspot_signature` embeds the signature-check decorator, with the
  hash functions abstract parameters.
* `hubspot_webhook` / `webhook_endpoint` embed the webhook route.
-/

/-- A scalar JSON value held in a contact property set. -/
inductive Value where
  | str (s : String)
  | bool (b : Bool)
  | num (n : Int)
  | null
deriving DecidableEq, Repr

/-- Python truthiness: `""`, `False`, `0` and `None` are falsy. -/
def Value.falsy : Value → Bool
  | .str s => s = ""
  | .bool b => !b
  | .num n => n = 0
  | .null => true

/-- `str(value)` as used in Python f-strings when building outcome messages. -/
def Value.render : Value → String
  | .str s => s
  | .bool b => if b then "True" else "False"
  | .num n => toString n
  | .null => "None"

/-- `Config.PROPERTIES_TO_SYNC`: properties fetched from the source portal. -/
def PROPERTIES_TO_SYNC : List String :=
  ["firstname", "lastname", "phone", "email", "address", "city", "state", "zip",
   "military_status___dropdown", "military_branch___dropdown", "military_rank",
   "verify_date_of_birth", "armed_forces_mutual_member", "edge_sso_sign_up",
   "edge_xp_earned__all_time_",
   "edge_initial_financial_assessment_completed_date",
   "stress_score_total", "stress_score_completed_date",
   "opted_out_of_communications_afm"]

/-- `Config.PROPERTY_MAPPING`: source name to destination name rename table. -/
def PROPERTY_MAPPING : List (String × String) :=
  [("opted_out_of_communications_afm", "hs_email_optout_27547260")]

/-- `Config.PROPERTIES_TO_SKIP`: source properties never sent to destination. -/
def PROPERTIES_TO_SKIP : List String :=
  ["military_status___dropdown", "military_branch___dropdown",
   "armed_forces_mutual_member"]

/-- Python dict assignment `d[k] = v` on an ordered association list:
update the value in place if the key exists, otherwise append at the end. -/
def dictInsert (k : String) (v : Value) : List (String × Value) → List (String × Value)
  | [] => [(k, v)]
  | (k0, v0) :: rest =>
    if k0 = k then (k0, v) :: rest else (k0, v0) :: dictInsert k v rest

/-- The keys of a property set, in order. -/
def keysOf (l : List (String × Value)) : List String := l.map Prod.fst

/-- `dest_key`: the rename-table lookup of lines 267-271
(`if source_key in Config.PROPERTY_MAPPING` then the mapped name else the key). -/
def renameKey (k : String) : String :=
  match PROPERTY_MAPPING.find? (fun p => p.1 = k) with
  | some p => p.2
  | none => k

/-- One iteration of the loop body of `map_properties_for_destination`:
skip falsy values, skip the skip-listed keys, otherwise insert under the
(possibly renamed) destination key. -/
def mapStep (dest : List (String × Value)) (kv : String × Value) :
    List (String × Value) :=
  if kv.2.falsy then dest
  else if kv.1 ∈ PROPERTIES_TO_SKIP then dest
  else dictInsert (renameKey kv.1) kv.2 dest

/-- `map_properties_for_destination` (lines 246-275): fold the loop body over
the source property set starting from the empty dict. -/
def map_properties_for_destination (source_props : List (String × Value)) :
    List (String × Value) :=
  source_props.foldl mapStep []

theorem renameKey_eq (k : String) :
    renameKey k =
      if k = "opted_out_of_communications_afm" then "hs_email_optout_27547260"
      else k := by
  by_cases h : k = "opted_out_of_communications_afm"
  · simp [renameKey, PROPERTY_MAPPING, List.find?, h]
  · have h2 : ¬("opted_out_of_communications_afm" = k) := fun he => h he.symm
    simp [renameKey, PROPERTY_MAPPING, List.find?, h, h2]

theorem mem_dictInsert {a : String × Value} {k : String} {v : Value}
    {l : List (String × Value)} (h : a ∈ dictInsert k v l) :
    a = (k, v) ∨ a ∈ l := by
  induction l with
  | nil => simpa [dictInsert] using h
  | cons hd tl ih =>
    rcases hd with ⟨k0, v0⟩
    by_cases hk : k0 = k
    · simp only [dictInsert, if_pos hk, List.mem_cons] at h
      subst hk
      rcases h with h | h
      · exact .inl h
      · exact .inr (List.mem_cons_of_mem _ h)
    · simp only [dictInsert, if_neg hk, List.mem_cons] at h
      rcases h with h | h
      · exact .inr (by simp [List.mem_cons, h])
      · rcases ih h with h1 | h1
        · exact .inl h1
        · exact .inr (List.mem_cons_of_mem _ h1)

theorem keys_dictInsert (k : String) (v : Value) (l : List (String × Value)) :
    k ∈ keysOf (dictInsert k v l) := by
  induction l with
  | nil => simp [dictInsert, keysOf]
  | cons hd tl ih =>
    by_cases hk : hd.1 = k
    · rcases hd with ⟨k0, v0⟩
      simp_all [dictInsert, keysOf]
    · rcases hd with ⟨k0, v0⟩
      simp only [dictInsert, if_neg hk, keysOf, List.map_cons, List.mem_cons]
      exact .inr ih

theorem keys_dictInsert_mono {k1 : String} (k : String) (v : Value)
    {l : List (String × Value)} (h : k1 ∈ keysOf l) :
    k1 ∈ keysOf (dictInsert k v l) := by
  induction l with
  | nil => simp [keysOf] at h
  | cons hd tl ih =>
    rcases hd with ⟨k0, v0⟩
    by_cases hk : k0 = k
    · simpa [dictInsert, hk, keysOf] using h
    · simp only [keysOf, List.map_cons, List.mem_cons] at h
      rcases h with h | h
      · simp [dictInsert, hk, keysOf, h]
      · simp only [dictInsert, if_neg hk, keysOf, List.map_cons, List.mem_cons]
        exact .inr (ih h)

theorem keys_dictInsert_sub {k1 k : String} {v : Value}
    {l : List (String × Value)} (h : k1 ∈ keysOf (dictInsert k v l)) :
    k1 = k ∨ k1 ∈ keysOf l := by
  induction l with
  | nil => simpa [dictInsert, keysOf] using h
  | cons hd tl ih =>
    rcases hd with ⟨k0, v0⟩
    by_cases hk : k0 = k
    · simp only [dictInsert, if_pos hk, keysOf, List.map_cons, List.mem_cons] at h
      rcases h with h | h
      · exact .inr (by simp [keysOf, h, hk])
      · exact .inr (by simp [keysOf, h])
    · simp only [dictInsert, if_neg hk, keysOf, List.map_cons, List.mem_cons] at h
      rcases h with h | h
      · exact .inr (by simp [keysOf, h])
      · rcases ih h with h1 | h1
        · exact .inl h1
        · exact .inr (by simp [keysOf]; exact .inr (by simpa [keysOf] using h1))

theorem nodup_keys_dictInsert {k : String} {v : Value}
    {l : List (String × Value)} (h : (keysOf l).Nodup) :
    (keysOf (dictInsert k v l)).Nodup := by
  induction l with
  | nil => simp [dictInsert, keysOf]
  | cons hd tl ih =>
    rcases hd with ⟨k0, v0⟩
    simp only [keysOf, List.map_cons, List.nodup_cons] at h
    by_cases hk : k0 = k
    · simp only [dictInsert, if_pos hk, keysOf, List.map_cons, List.nodup_cons]
      exact ⟨h.1, h.2⟩
    · simp only [dictInsert, if_neg hk, keysOf, List.map_cons, List.nodup_cons]
      refine ⟨?_, ih h.2⟩
      intro hmem
      rcases keys_dictInsert_sub (l := tl) (by simpa [keysOf] using hmem) with h1 | h1
      · exact hk h1
      · exact h.1 (by simpa [keysOf] using h1)

theorem dictInsert_fresh {k : String} {v : Value} {l : List (String × Value)}
    (h : k ∉ keysOf l) : dictInsert k v l = l ++ [(k, v)] := by
  induction l with
  | nil => simp [dictInsert]
  | cons hd tl ih =>
    rcases hd with ⟨k0, v0⟩
    simp only [keysOf, List.map_cons, List.mem_cons] at h
    push_neg at h
    have hne : ¬(k0 = k) := fun he => h.1 he.symm
    simp only [dictInsert, if_neg hne, List.cons_append, List.cons.injEq, true_and]
    exact ih h.2

theorem mapStep_cases (acc : List (String × Value)) (kv : String × Value) :
    mapStep acc kv = acc ∨
      (kv.2.falsy = false ∧ kv.1 ∉ PROPERTIES_TO_SKIP ∧
        mapStep acc kv = dictInsert (renameKey kv.1) kv.2 acc) := by
  by_cases hf : kv.2.falsy
  · exact .inl (by simp [mapStep, hf])
  · by_cases hs : kv.1 ∈ PROPERTIES_TO_SKIP
    · exact .inl (by simp [mapStep, hf, hs])
    · exact .inr ⟨by simpa using hf, hs, by simp [mapStep, hf, hs]⟩

theorem mem_foldl_mapStep {a : String × Value} :
    ∀ (P acc : List (String × Value)), a ∈ P.foldl mapStep acc →
      a ∈ acc ∨ ∃ k0, (k0, a.2) ∈ P ∧ a.2.falsy = false ∧
        k0 ∉ PROPERTIES_TO_SKIP ∧ renameKey k0 = a.1 := by
  intro P
  induction P with
  | nil => intro acc h; exact .inl (by simpa using h)
  | cons hd rest ih =>
    intro acc h
    simp only [List.foldl_cons] at h
    rcases ih (mapStep acc hd) h with h1 | h1
    · rcases mapStep_cases acc hd with hc | ⟨hf, hs, hc⟩
      · rw [hc] at h1; exact .inl h1
      · rw [hc] at h1
        rcases mem_dictInsert h1 with h2 | h2
        · refine .inr ⟨hd.1, ?_, ?_, hs, ?_⟩
          · have : a.2 = hd.2 := by rw [h2]
            rw [this]; exact List.mem_cons_self _ _
          · rw [h2]; exact hf
          · rw [h2]
        · exact .inl h2
    · rcases h1 with ⟨k0, hk0, hf, hs, hr⟩
      exact .inr ⟨k0, List.mem_cons_of_mem _ hk0, hf, hs, hr⟩

theorem keys_foldl_mapStep_mono {k1 : String} :
    ∀ (P acc : List (String × Value)), k1 ∈ keysOf acc →
      k1 ∈ keysOf (P.foldl mapStep acc) := by
  intro P
  induction P with
  | nil => intro acc h; simpa using h
  | cons hd rest ih =>
    intro acc h
    simp only [List.foldl_cons]
    apply ih
    rcases mapStep_cases acc hd with hc | ⟨_, _, hc⟩
    · rw [hc]; exact h
    · rw [hc]; exact keys_dictInsert_mono _ _ h

theorem keys_foldl_mapStep_of_mem {k0 : String} {v : Value} :
    ∀ (P acc : List (String × Value)), (k0, v) ∈ P → v.falsy = false →
      k0 ∉ PROPERTIES_TO_SKIP →
      renameKey k0 ∈ keysOf (P.foldl mapStep acc) := by
  intro P
  induction P with
  | nil => intro acc h; simp at h
  | cons hd rest ih =>
    intro acc hmem hf hs
    simp only [List.foldl_cons]
    rcases List.mem_cons.mp hmem with h | h
    · apply keys_foldl_mapStep_mono
      have hstep : mapStep acc hd = dictInsert (renameKey k0) v acc := by
        rw [← h]; simp [mapStep, ← h, hf, hs]
      rw [hstep]
      exact keys_dictInsert _ _ _
    · exact ih _ h hf hs

theorem nodup_keys_foldl_mapStep :
    ∀ (P acc : List (String × Value)), (keysOf acc).Nodup →
      (keysOf (P.foldl mapStep acc)).Nodup := by
  intro P
  induction P with
  | nil => intro acc h; simpa using h
  | cons hd rest ih =>
    intro acc h
    simp only [List.foldl_cons]
    apply ih
    rcases mapStep_cases acc hd with hc | ⟨_, _, hc⟩
    · rw [hc]; exact h
    · rw [hc]; exact nodup_keys_dictInsert h

theorem renameKey_not_skip {k : String} (h : k ∉ PROPERTIES_TO_SKIP) :
    renameKey k ∉ PROPERTIES_TO_SKIP := by
  rw [renameKey_eq]
  by_cases hk : k = "opted_out_of_communications_afm"
  · rw [if_pos hk]; decide
  · rw [if_neg hk]; exact h

theorem renameKey_idem (k : String) : renameKey (renameKey k) = renameKey k := by
  rw [renameKey_eq k]
  by_cases hk : k = "opted_out_of_communications_afm"
  · rw [if_pos hk, renameKey_eq, if_neg (by decide)]
  · rw [if_neg hk, renameKey_eq, if_neg hk]

theorem renameKey_ne_table_key (k : String) :
    renameKey k ≠ "opted_out_of_communications_afm" := by
  rw [renameKey_eq]
  by_cases hk : k = "opted_out_of_communications_afm"
  · rw [if_pos hk]; decide
  · rw [if_neg hk]; exact hk

theorem mem_keysOf {k : String} {l : List (String × Value)} :
    k ∈ keysOf l ↔ ∃ v, (k, v) ∈ l := by
  constructor
  · intro h
    rcases List.mem_map.mp h with ⟨a, ha, rfl⟩
    exact ⟨a.2, by simpa using ha⟩
  · rintro ⟨v, hv⟩
    exact List.mem_map.mpr ⟨(k, v), hv, rfl⟩

theorem foldl_mapStep_pure :
    ∀ (l acc : List (String × Value)),
      (∀ k v, (k, v) ∈ l →
        v.falsy = false ∧ k ∉ PROPERTIES_TO_SKIP ∧ renameKey k = k) →
      (keysOf l).Nodup →
      (∀ k, k ∈ keysOf l → k ∉ keysOf acc) →
      l.foldl mapStep acc = acc ++ l := by
  intro l
  induction l with
  | nil => intro acc _ _ _; simp
  | cons hd rest ih =>
    intro acc hprops hnd hfresh
    rcases hd with ⟨k, v⟩
    obtain ⟨hf, hs, hr⟩ := hprops k v (List.mem_cons_self _ _)
    have hkfresh : k ∉ keysOf acc := hfresh k (by simp [keysOf])
    have hstep : mapStep acc (k, v) = acc ++ [(k, v)] := by
      have h1 : mapStep acc (k, v) = dictInsert (renameKey k) v acc := by
        simp [mapStep, hf, hs]
      rw [h1, hr, dictInsert_fresh hkfresh]
    have hnd1 : k ∉ keysOf rest ∧ (keysOf rest).Nodup := by
      simpa [keysOf, List.nodup_cons] using hnd
    have hprops2 : ∀ k1 v1, (k1, v1) ∈ rest →
        v1.falsy = false ∧ k1 ∉ PROPERTIES_TO_SKIP ∧ renameKey k1 = k1 :=
      fun k1 v1 hm => hprops k1 v1 (List.mem_cons_of_mem _ hm)
    have hfresh2 : ∀ k1, k1 ∈ keysOf rest → k1 ∉ keysOf (acc ++ [(k, v)]) := by
      intro k1 hk1 hin
      have hin2 : k1 ∈ keysOf acc ∨ k1 = k := by
        simpa [keysOf] using hin
      rcases hin2 with hin2 | hin2
      · exact hfresh k1 (by simp [keysOf]; exact .inr (by simpa [keysOf] using hk1)) hin2
      · exact hnd1.1 (hin2 ▸ hk1)
    simp only [List.foldl_cons, hstep]
    rw [ih (acc ++ [(k, v)]) hprops2 hnd1.2 hfresh2]
    simp

/-- C1: for every source property set `P`, the mapper output contains no
skip-list key; no rename-table key survives under its source name, and any
rename-table entry of `P` with a truthy value appears under its destination
name; every other truthy entry not skip-listed keeps its key; every entry of
the output has a truthy value carried over unchanged from some source entry
whose renamed key it sits under. -/
theorem mapper_correct (P : List (String × Value)) :
    (∀ k, k ∈ keysOf (map_properties_for_destination P) → k ∉ PROPERTIES_TO_SKIP)
    ∧ (∀ km, km ∈ PROPERTY_MAPPING.map Prod.fst →
        km ∉ keysOf (map_properties_for_destination P))
    ∧ (∀ k d v, (k, d) ∈ PROPERTY_MAPPING → (k, v) ∈ P → v.falsy = false →
        d ∈ keysOf (map_properties_for_destination P))
    ∧ (∀ k v, (k, v) ∈ P → k ∉ PROPERTY_MAPPING.map Prod.fst →
        k ∉ PROPERTIES_TO_SKIP → v.falsy = false →
        k ∈ keysOf (map_properties_for_destination P))
    ∧ (∀ k v, (k, v) ∈ map_properties_for_destination P →
        v.falsy = false ∧ ∃ k0, (k0, v) ∈ P ∧ renameKey k0 = k) := by
  refine ⟨?_, ?_, ?_, ?_, ?_⟩
  · intro k hk
    rcases mem_keysOf.mp hk with ⟨v, hv⟩
    rcases mem_foldl_mapStep P [] hv with h | ⟨k0, _, _, hs, hr⟩
    · simp at h
    · have hr2 : renameKey k0 = k := hr
      rw [← hr2]; exact renameKey_not_skip hs
  · intro km hkm hmem
    have hkm2 : km = "opted_out_of_communications_afm" := by
      simpa [PROPERTY_MAPPING] using hkm
    rcases mem_keysOf.mp hmem with ⟨v, hv⟩
    rcases mem_foldl_mapStep P [] hv with h | ⟨k0, _, _, _, hr⟩
    · simp at h
    · exact renameKey_ne_table_key k0 (by rw [hr, hkm2])
  · intro k d v hkd hkv hf
    have hk : k = "opted_out_of_communications_afm" ∧ d = "hs_email_optout_27547260" := by
      simpa [PROPERTY_MAPPING] using hkd
    have hrk : renameKey k = d := by rw [renameKey_eq, if_pos hk.1, hk.2]
    have hks : k ∉ PROPERTIES_TO_SKIP := by rw [hk.1]; decide
    have := keys_foldl_mapStep_of_mem P [] hkv hf hks
    rwa [hrk] at this
  · intro k v hkv hkm hks hf
    have hrk : renameKey k = k := by
      rw [renameKey_eq, if_neg]
      intro hc
      exact hkm (by simp [PROPERTY_MAPPING, hc])
    have := keys_foldl_mapStep_of_mem P [] hkv hf hks
    rwa [hrk] at this
  · intro k v hkv
    rcases mem_foldl_mapStep P [] hkv with h | ⟨k0, hk0, hf, _, hr⟩
    · simp at h
    · exact ⟨hf, k0, hk0, hr⟩

/-- A concrete source property set exercising skip, rename and drop-empty. -/
def sampleProps : List (String × Value) :=
  [("firstname", .str ""), ("military_rank", .str "E5"),
   ("armed_forces_mutual_member", .str "yes"),
   ("opted_out_of_communications_afm", .str "true")]

/-- Witness for C1 at `sampleProps`: the skip-listed and renamed source keys
are absent, the rename target and the untouched key are present, and the
surviving renamed value is traced back to its source entry. -/
theorem mapper_correct_witness :
    "armed_forces_mutual_member" ∉ keysOf (map_properties_for_destination sampleProps)
    ∧ "opted_out_of_communications_afm" ∉ keysOf (map_properties_for_destination sampleProps)
    ∧ "hs_email_optout_27547260" ∈ keysOf (map_properties_for_destination sampleProps)
    ∧ "military_rank" ∈ keysOf (map_properties_for_destination sampleProps)
    ∧ ((Value.str "true").falsy = false ∧
        ∃ k0, (k0, Value.str "true") ∈ sampleProps ∧
          renameKey k0 = "hs_email_optout_27547260") :=
  ⟨fun h => (mapper_correct sampleProps).1 _ h (by decide),
   (mapper_correct sampleProps).2.1 _ (by decide),
   (mapper_correct sampleProps).2.2.1 "opted_out_of_communications_afm" _
     (Value.str "true") (by decide) (by decide) (by decide),
   (mapper_correct sampleProps).2.2.2.1 "military_rank" (Value.str "E5")
     (by decide) (by decide) (by decide) (by decide),
   (mapper_correct sampleProps).2.2.2.2 "hs_email_optout_27547260"
     (Value.str "true") (by decide)⟩

/-- C9: the field mapper is idempotent: for every property set `P`,
`map (map P) = map P`; in particular every output of the mapper is left
unchanged by a second application. -/
theorem mapper_idempotent (P : List (String × Value)) :
    map_properties_for_destination (map_properties_for_destination P) =
      map_properties_for_destination P := by
  have hprops : ∀ k v, (k, v) ∈ map_properties_for_destination P →
      v.falsy = false ∧ k ∉ PROPERTIES_TO_SKIP ∧ renameKey k = k := by
    intro k v hm
    rcases mem_foldl_mapStep P [] hm with h | ⟨k0, _, hf, hs, hr⟩
    · simp at h
    · have hr2 : renameKey k0 = k := hr
      refine ⟨hf, ?_, ?_⟩
      · rw [← hr2]; exact renameKey_not_skip hs
      · rw [← hr2]; exact renameKey_idem k0
  have hnd : (keysOf (map_properties_for_destination P)).Nodup :=
    nodup_keys_foldl_mapStep P [] (by simp [keysOf])
  have h := foldl_mapStep_pure (map_properties_for_destination P) [] hprops hnd
    (by intro k _ hc; simp [keysOf] at hc)
  simpa [map_properties_for_destination] using h

/-- The outcome dict built per event. `event_type` is `none` for the
form-filter skip entry (lines 409-413), which carries no such field. -/
structure Outcome where
  contact_id : String
  event_type : Option String
  status : String
  message : String
deriving DecidableEq, Repr

/-- Which portal a CRM call is issued against. -/
inductive Account where
  | src
  | dst
deriving DecidableEq, Repr

/-- One CRM API call as issued by the orchestrator. -/
inductive CrmCall where
  | getContact (acct : Account) (contactId : String)
  | searchByEmail (acct : Account) (email : Value)
  | createContact (acct : Account) (props : List (String × Value))
  | updateContact (acct : Account) (contactId : String)
      (props : List (String × Value))
deriving DecidableEq, Repr

def CrmCall.account : CrmCall → Account
  | .getContact a _ => a
  | .searchByEmail a _ => a
  | .createContact a _ => a
  | .updateContact a _ _ => a

/-- A contact record fetched from the source portal: its `properties` dict. -/
structure SourceContact where
  properties : List (String × Value)
deriving DecidableEq, Repr

/-- A destination contact found by `search_by_email`: only its `id` is used. -/
structure FoundContact where
  id : String
deriving DecidableEq, Repr

/-- Result of one client call: a value, or a raised exception message. -/
inductive ApiResult (α : Type) where
  | ok (val : α)
  | exn (msg : String)
deriving DecidableEq, Repr

/-- What each client call returns during one sync. `fetch = .ok none` models
`get_contact` returning a falsy/empty record (line 297). -/
structure World where
  fetch : ApiResult (Option SourceContact)
  search : ApiResult (Option FoundContact)
  updateRes : ApiResult Unit
  createRes : ApiResult Unit
deriving DecidableEq, Repr

/-- `props.get("email")` (line 303): the stored value, `None` if absent. -/
def emailOf (props : List (String × Value)) : Value :=
  match props.find? (fun kv => kv.1 = "email") with
  | some kv => kv.2
  | none => .null

/-- `sync_contact_to_partner` (lines 282-335): the outcome dict together with
the trace of CRM calls issued. `.exn` branches land in the `except` handler
of lines 330-333, which converts them to an `error` outcome. -/
def sync_contact_to_partner (w : World) (contact_id : String)
    (event_type : String) : Outcome × List CrmCall :=
  match w.fetch with
  | .exn m =>
    (⟨contact_id, some event_type, "error", m⟩, [.getContact .src contact_id])
  | .ok none =>
    (⟨contact_id, some event_type, "error", "Contact not found in source portal"⟩,
      [.getContact .src contact_id])
  | .ok (some contact) =>
    let email := emailOf contact.properties
    if email.falsy then
      (⟨contact_id, some event_type, "skipped", "Contact has no email"⟩,
        [.getContact .src contact_id])
    else
      let sync_props := map_properties_for_destination contact.properties
      match w.search with
      | .exn m =>
        (⟨contact_id, some event_type, "error", m⟩,
          [.getContact .src contact_id, .searchByEmail .dst email])
      | .ok (some existing) =>
        match w.updateRes with
        | .exn m =>
          (⟨contact_id, some event_type, "error", m⟩,
            [.getContact .src contact_id, .searchByEmail .dst email,
              .updateContact .dst existing.id sync_props])
        | .ok _ =>
          (⟨contact_id, some event_type, "updated",
              "Updated contact: " ++ email.render⟩,
            [.getContact .src contact_id, .searchByEmail .dst email,
              .updateContact .dst existing.id sync_props])
      | .ok none =>
        match w.createRes with
        | .exn m =>
          (⟨contact_id, some event_type, "error", m⟩,
            [.getContact .src contact_id, .searchByEmail .dst email,
              .createContact .dst sync_props])
        | .ok _ =>
          (⟨contact_id, some event_type, "created",
              "Created contact: " ++ email.render⟩,
            [.getContact .src contact_id, .searchByEmail .dst email,
              .createContact .dst sync_props])

/-- C2: when the fetched source contact carries a truthy email, a successful
destination search hit makes sync report `updated`, issuing exactly one
update call against the found contact's id and never a create call; a
successful search miss makes sync report `created`, issuing exactly one
create call carrying the mapped property set and never an update call. -/
theorem sync_upsert_correct (w : World) (c : SourceContact) (cid et : String)
    (hf : w.fetch = .ok (some c))
    (he : (emailOf c.properties).falsy = false) :
    (∀ ex, w.search = .ok (some ex) → w.updateRes = .ok () →
      (sync_contact_to_partner w cid et).1.status = "updated"
      ∧ (sync_contact_to_partner w cid et).2.count
          (.updateContact .dst ex.id (map_properties_for_destination c.properties)) = 1
      ∧ (∀ p, CrmCall.createContact .dst p ∉ (sync_contact_to_partner w cid et).2))
    ∧ (w.search = .ok none → w.createRes = .ok () →
      (sync_contact_to_partner w cid et).1.status = "created"
      ∧ (sync_contact_to_partner w cid et).2.count
          (.createContact .dst (map_properties_for_destination c.properties)) = 1
      ∧ (∀ i p, CrmCall.updateContact .dst i p ∉ (sync_contact_to_partner w cid et).2)) := by
  constructor
  · intro ex hs hu
    simp [sync_contact_to_partner, hf, he, hs, hu, List.count_cons]
  · intro hs hc
    simp [sync_contact_to_partner, hf, he, hs, hc, List.count_cons]

/-- Witness for C2 at a concrete world: search hit gives `updated` with one
update call and no create call. -/
theorem sync_upsert_correct_witness :
    (sync_contact_to_partner
        ⟨.ok (some ⟨[("email", .str "a@x.com")]⟩), .ok (some ⟨"77"⟩), .ok (), .ok ()⟩
        "5" "contact.creation").1.status = "updated"
    ∧ (sync_contact_to_partner
        ⟨.ok (some ⟨[("email", .str "a@x.com")]⟩), .ok (some ⟨"77"⟩), .ok (), .ok ()⟩
        "5" "contact.creation").2.count
        (.updateContact .dst "77"
          (map_properties_for_destination [("email", .str "a@x.com")])) = 1
    ∧ (∀ p, CrmCall.createContact .dst p ∉
        (sync_contact_to_partner
          ⟨.ok (some ⟨[("email", .str "a@x.com")]⟩), .ok (some ⟨"77"⟩), .ok (), .ok ()⟩
          "5" "contact.creation").2) :=
  (sync_upsert_correct
    ⟨.ok (some ⟨[("email", .str "a@x.com")]⟩), .ok (some ⟨"77"⟩), .ok (), .ok ()⟩
    ⟨[("email", .str "a@x.com")]⟩ "5" "contact.creation" rfl (by decide)).1
    ⟨"77"⟩ rfl rfl

/-- C5 counterexample: with the source fetch reporting no contact, the error
message the code produces is "Contact not found in source portal", so it is
not the string "not found in source" the claim states. -/
theorem sync_not_found_message_counterexample :
    (sync_contact_to_partner ⟨.ok none, .ok none, .ok (), .ok ()⟩
        "42" "contact.creation").1.status = "error"
    ∧ (sync_contact_to_partner ⟨.ok none, .ok none, .ok (), .ok ()⟩
        "42" "contact.creation").1.message = "Contact not found in source portal"
    ∧ "Contact not found in source portal" ≠ "not found in source" :=
  ⟨rfl, rfl, by decide⟩

/-- C5 amended: when the source fetch reports the contact as not found, sync
returns an `error` outcome whose message is "Contact not found in source
portal" (which contains the phrase "not found in source"), and no call is
made to the destination account. -/
theorem sync_not_found (w : World) (cid et : String) (h : w.fetch = .ok none) :
    (sync_contact_to_partner w cid et).1.status = "error"
    ∧ (sync_contact_to_partner w cid et).1.message =
        "Contact not found in source portal"
    ∧ (sync_contact_to_partner w cid et).2.filter
        (fun cl => cl.account == Account.dst) = [] := by
  simp [sync_contact_to_partner, h, CrmCall.account]

/-- Witness for C5 (amended) at a concrete world. -/
theorem sync_not_found_witness :
    (sync_contact_to_partner ⟨.ok none, .ok none, .ok (), .ok ()⟩
        "42" "manual_test").1.status = "error"
    ∧ (sync_contact_to_partner ⟨.ok none, .ok none, .ok (), .ok ()⟩
        "42" "manual_test").1.message = "Contact not found in source portal"
    ∧ (sync_contact_to_partner ⟨.ok none, .ok none, .ok (), .ok ()⟩
        "42" "manual_test").2.filter (fun cl => cl.account == Account.dst) = [] :=
  sync_not_found ⟨.ok none, .ok none, .ok (), .ok ()⟩ "42" "manual_test" rfl

/-- C6: when the fetched contact has no "email" property, or its email is the
empty string, sync reports `skipped` and issues no call to the destination
account. -/
theorem sync_no_email (w : World) (c : SourceContact) (cid et : String)
    (hf : w.fetch = .ok (some c))
    (he : c.properties.find? (fun kv => kv.1 = "email") = none ∨
      emailOf c.properties = .str "") :
    (sync_contact_to_partner w cid et).1.status = "skipped"
    ∧ (sync_contact_to_partner w cid et).2.filter
        (fun cl => cl.account == Account.dst) = [] := by
  have hfalsy : (emailOf c.properties).falsy = true := by
    rcases he with he | he
    · simp [emailOf, he, Value.falsy]
    · rw [he]; decide
  simp [sync_contact_to_partner, hf, hfalsy, CrmCall.account]

/-- Witness for C6 at a concrete world: a contact with only a first name. -/
theorem sync_no_email_witness :
    (sync_contact_to_partner
        ⟨.ok (some ⟨[("firstname", .str "Bob")]⟩), .ok none, .ok (), .ok ()⟩
        "9" "contact.creation").1.status = "skipped"
    ∧ (sync_contact_to_partner
        ⟨.ok (some ⟨[("firstname", .str "Bob")]⟩), .ok none, .ok (), .ok ()⟩
        "9" "contact.creation").2.filter
        (fun cl => cl.account == Account.dst) = [] :=
  sync_no_email ⟨.ok (some ⟨[("firstname", .str "Bob")]⟩), .ok none, .ok (), .ok ()⟩
    ⟨[("firstname", .str "Bob")]⟩ "9" "contact.creation" rfl (.inl (by decide))

/-- A webhook event as read from one batch element (lines 392-394, 406):
subscription type, stringified object id, and form id, with `""` defaults. -/
structure Event where
  subscriptionType : String
  objectId : String
  formId : String
deriving DecidableEq, Repr

/-- The recognized subscription types (lines 399-403). -/
def recognizedTypes : List String :=
  ["contact.creation", "contact.propertyChange", "form.submitted"]

/-- The JSON body of the webhook response (lines 422-426). -/
structure WebhookResponse where
  received : Nat
  processed : Nat
  results : List Outcome
deriving DecidableEq, Repr

/-- The event loop of `hubspot_webhook` (lines 392-420): the accumulated
outcome list and the CRM calls issued. `w` gives each contact id its sync
world. -/
def processEvents (formFilter : List String) (w : String → World) :
    List Event → List Outcome × List CrmCall
  | [] => ([], [])
  | e :: rest =>
    let tail := processEvents formFilter w rest
    if e.subscriptionType ∈ recognizedTypes then
      if e.subscriptionType = "form.submitted" ∧ formFilter ≠ [] ∧
          e.formId ∉ formFilter then
        (⟨e.objectId, none, "skipped",
            "Form " ++ e.formId ++ " not in filter"⟩ :: tail.1, tail.2)
      else
        let r := sync_contact_to_partner (w e.objectId) e.objectId
          e.subscriptionType
        (r.1 :: tail.1, r.2 ++ tail.2)
    else tail

/-- `hubspot_webhook` (lines 371-430) on a parsed, normalized event list:
the response body and the CRM calls issued. -/
def hubspot_webhook (formFilter : List String) (w : String → World)
    (events : List Event) : WebhookResponse × List CrmCall :=
  let pr := processEvents formFilter w events
  (⟨events.length, pr.1.length, pr.1⟩, pr.2)

/-- The environment-driven verification settings of `Config`. -/
structure SigConfig where
  SKIP_SIGNATURE_VERIFICATION : Bool
  CLIENT_SECRET : String
deriving DecidableEq, Repr

/-- The request data read by `verify_hubspot_signature`: the three headers
(absent headers are `none`) and the method, full url and raw body. -/
structure RequestData where
  sigV3 : Option String
  timestamp : Option String
  sigV1 : Option String
  method : String
  url : String
  body : String
deriving DecidableEq, Repr

/-- Truthiness of `headers.get(...)`: present and non-empty. -/
def headerTruthy : Option String → Bool
  | none => false
  | some s => s ≠ ""

/-- The decorator's decision: call the handler, or reply 401. -/
inductive SigDecision where
  | proceed
  | reject (err : String)
deriving DecidableEq, Repr

/-- `verify_hubspot_signature` (lines 192-239). `hm secret msg` stands for
the hex HMAC-SHA256 digest and `sh msg` for the hex SHA-256 digest; both are
abstract parameters since no claim depends on properties of the hashes. -/
def verify_hubspot_signature (hm : String → String → String)
    (sh : String → String) (cfg : SigConfig) (req : RequestData) :
    SigDecision :=
  if cfg.SKIP_SIGNATURE_VERIFICATION then .proceed
  else if cfg.CLIENT_SECRET = "" then .proceed
  else if headerTruthy req.sigV3 && headerTruthy req.timestamp then
    let source_string := req.method ++ req.url ++ req.body ++ req.timestamp.getD ""
    if hm cfg.CLIENT_SECRET source_string = req.sigV3.getD "" then .proceed
    else .reject "Invalid signature"
  else
    match req.sigV1 with
    | some s1 =>
      if s1 ≠ "" ∧ sh (cfg.CLIENT_SECRET ++ req.body) = s1 then .proceed
      else .reject "Missing signature"
    | none => .reject "Missing signature"

/-- The outcome of `request.json` plus the list normalization of
lines 385-388: a normalized event list, or a parse exception. -/
inductive ParseOutcome where
  | parsed (events : List Event)
  | failed (msg : String)
deriving DecidableEq, Repr

/-- An HTTP reply from the webhook route. -/
inductive HttpReply where
  | okJson (resp : WebhookResponse)
  | unauthorized (err : String)
  | serverError (err : String)
deriving DecidableEq, Repr

/-- The decorated `POST /webhooks/hubspot` route: the signature decision
gates the handler (lines 192-239, 371-372); a body-parse failure is the
`except` of lines 428-430 replying 500; otherwise the event loop runs. -/
def webhook_endpoint (hm : String → String → String) (sh : String → String)
    (cfg : SigConfig) (req : RequestData) (formFilter : List String)
    (w : String → World) (parsed : ParseOutcome) : HttpReply × List CrmCall :=
  match verify_hubspot_signature hm sh cfg req with
  | .reject e => (.unauthorized e, [])
  | .proceed =>
    match parsed with
    | .failed m => (.serverError m, [])
    | .parsed events =>
      let r := hubspot_webhook formFilter w events
      (.okJson r.1, r.2)

/-- Modelled from the claim's wording (not from the code): an event is
"kept" when its type is recognized, where `form.submitted` counts only when
the allow-list is empty or contains its formId. Used to compare the claim
with the handler. -/
def keptPerClaim (formFilter : List String) (e : Event) : Bool :=
  e.subscriptionType == "contact.creation" ||
  e.subscriptionType == "contact.propertyChange" ||
  (e.subscriptionType == "form.submitted" &&
    (formFilter.isEmpty || formFilter.contains e.formId))

/-- A world in which every call succeeds but finds nothing. -/
def wQuiet : String → World := fun _ => ⟨.ok none, .ok none, .ok (), .ok ()⟩

theorem processEvents_length (formFilter : List String) (w : String → World) :
    ∀ events : List Event,
      (processEvents formFilter w events).1.length =
        events.countP (fun e => decide (e.subscriptionType ∈ recognizedTypes)) := by
  intro events
  induction events with
  | nil => simp [processEvents]
  | cons e rest ih =>
    simp only [processEvents, List.countP_cons]
    by_cases hr : e.subscriptionType ∈ recognizedTypes
    · rw [if_pos hr]
      by_cases hf : e.subscriptionType = "form.submitted" ∧ formFilter ≠ [] ∧
          e.formId ∉ formFilter
      · rw [if_pos hf]
        simp [ih, hr]
      · rw [if_neg hf]
        simp [ih, hr]
    · rw [if_neg hr]
      simp [ih, hr]

/-- C3 counterexample: with allow-list `["f1"]`, a batch holding a single
`form.submitted` event with formId `"f2"` is not "kept" per the claim, yet
the handler reports `processed = 1` and one (skipped) Outcome. -/
theorem webhook_form_filter_counterexample :
    (hubspot_webhook ["f1"] wQuiet [⟨"form.submitted", "101", "f2"⟩]).1.processed = 1
    ∧ (hubspot_webhook ["f1"] wQuiet [⟨"form.submitted", "101", "f2"⟩]).1.results.length = 1
    ∧ List.countP (fun e => keptPerClaim ["f1"] e)
        [(⟨"form.submitted", "101", "f2"⟩ : Event)] = 0 := by
  refine ⟨?_, ?_, ?_⟩ <;> decide

/-- C3 amended: every event whose subscription type is recognized gets
exactly one Outcome — a `form.submitted` event failing the configured
allow-list is not dropped but yields a skipped Outcome — so the response
reports `received = N` and `processed` = number of recognized-type events;
in particular a batch of one recognized and one unrecognized event yields
`received: 2, processed: 1` and a single Outcome. -/
theorem webhook_counts (formFilter : List String) (w : String → World)
    (events : List Event) :
    (hubspot_webhook formFilter w events).1.received = events.length
    ∧ (hubspot_webhook formFilter w events).1.processed =
        events.countP (fun e => decide (e.subscriptionType ∈ recognizedTypes))
    ∧ (hubspot_webhook formFilter w events).1.results.length =
        events.countP (fun e => decide (e.subscriptionType ∈ recognizedTypes))
    ∧ (hubspot_webhook [] wQuiet
        [⟨"contact.creation", "1", ""⟩, ⟨"deal.creation", "2", ""⟩]).1.received = 2
    ∧ (hubspot_webhook [] wQuiet
        [⟨"contact.creation", "1", ""⟩, ⟨"deal.creation", "2", ""⟩]).1.processed = 1
    ∧ (hubspot_webhook [] wQuiet
        [⟨"contact.creation", "1", ""⟩, ⟨"deal.creation", "2", ""⟩]).1.results.length = 1 := by
  refine ⟨rfl, ?_, ?_, by decide, by decide, by decide⟩
  · exact processEvents_length formFilter w events
  · exact processEvents_length formFilter w events

/-- C7: a client exception at any of the four call sites is converted into
an `error` Outcome; every sync yields one of the four statuses; the batch
outcome list holds one entry per recognized-type event for every world, so
no per-event failure aborts the remaining events; and the only replies that
abort the whole request are a 401 from a signature rejection and a 500 from
a body-parse failure. -/
theorem per_event_failures_isolated :
    (∀ (w : World) (cid et m : String), w.fetch = .exn m →
      (sync_contact_to_partner w cid et).1 = ⟨cid, some et, "error", m⟩)
    ∧ (∀ (w : World) (c : SourceContact) (cid et m : String),
        w.fetch = .ok (some c) → (emailOf c.properties).falsy = false →
        w.search = .exn m →
        (sync_contact_to_partner w cid et).1 = ⟨cid, some et, "error", m⟩)
    ∧ (∀ (w : World) (c : SourceContact) (ex : FoundContact) (cid et m : String),
        w.fetch = .ok (some c) → (emailOf c.properties).falsy = false →
        w.search = .ok (some ex) → w.updateRes = .exn m →
        (sync_contact_to_partner w cid et).1 = ⟨cid, some et, "error", m⟩)
    ∧ (∀ (w : World) (c : SourceContact) (cid et m : String),
        w.fetch = .ok (some c) → (emailOf c.properties).falsy = false →
        w.search = .ok none → w.createRes = .exn m →
        (sync_contact_to_partner w cid et).1 = ⟨cid, some et, "error", m⟩)
    ∧ (∀ (w : World) (cid et : String),
        (sync_contact_to_partner w cid et).1.status ∈
          (["created", "updated", "skipped", "error"] : List String))
    ∧ (∀ (formFilter : List String) (w : String → World) (events : List Event),
        (hubspot_webhook formFilter w events).1.results.length =
          events.countP (fun e => decide (e.subscriptionType ∈ recognizedTypes)))
    ∧ (∀ (hm : String → String → String) (sh : String → String)
        (cfg : SigConfig) (req : RequestData) (formFilter : List String)
        (w : String → World) (parsed : ParseOutcome) (e : String),
        (webhook_endpoint hm sh cfg req formFilter w parsed).1 = .unauthorized e →
        verify_hubspot_signature hm sh cfg req = .reject e)
    ∧ (∀ (hm : String → String → String) (sh : String → String)
        (cfg : SigConfig) (req : RequestData) (formFilter : List String)
        (w : String → World) (parsed : ParseOutcome) (m : String),
        (webhook_endpoint hm sh cfg req formFilter w parsed).1 = .serverError m →
        verify_hubspot_signature hm sh cfg req = .proceed ∧
          parsed = .failed m) := by
  refine ⟨?_, ?_, ?_, ?_, ?_, ?_, ?_, ?_⟩
  · intro w cid et m h
    simp [sync_contact_to_partner, h]
  · intro w c cid et m hf he hs
    simp [sync_contact_to_partner, hf, he, hs]
  · intro w c ex cid et m hf he hs hu
    simp [sync_contact_to_partner, hf, he, hs, hu]
  · intro w c cid et m hf he hs hc
    simp [sync_contact_to_partner, hf, he, hs, hc]
  · intro w cid et
    cases hf : w.fetch with
    | exn m => simp [sync_contact_to_partner, hf]
    | ok oc =>
      cases oc with
      | none => simp [sync_contact_to_partner, hf]
      | some c =>
        by_cases he : (emailOf c.properties).falsy
        · simp [sync_contact_to_partner, hf, he]
        · cases hs : w.search with
          | exn m => simp [sync_contact_to_partner, hf, he, hs]
          | ok fo =>
            cases fo with
            | none =>
              cases hc : w.createRes with
              | exn m => simp [sync_contact_to_partner, hf, he, hs, hc]
              | ok u => simp [sync_contact_to_partner, hf, he, hs, hc]
            | some ex =>
              cases hu : w.updateRes with
              | exn m => simp [sync_contact_to_partner, hf, he, hs, hu]
              | ok u => simp [sync_contact_to_partner, hf, he, hs, hu]
  · intro formFilter w events
    exact processEvents_length formFilter w events
  · intro hm sh cfg req formFilter w parsed e h
    cases hv : verify_hubspot_signature hm sh cfg req with
    | reject e2 =>
      simp [webhook_endpoint, hv] at h
      rw [h]
    | proceed =>
      cases parsed <;> simp [webhook_endpoint, hv] at h
  · intro hm sh cfg req formFilter w parsed m h
    cases hv : verify_hubspot_signature hm sh cfg req with
    | reject e2 => simp [webhook_endpoint, hv] at h
    | proceed =>
      cases parsed with
      | parsed events => simp [webhook_endpoint, hv] at h
      | failed m2 =>
        simp [webhook_endpoint, hv] at h
        exact ⟨rfl, by rw [h]⟩

/-- Witness for C7: each failure conversion at a concrete world, and the two
abort channels at concrete requests. -/
theorem per_event_failures_isolated_witness :
    (sync_contact_to_partner ⟨.exn "boom", .ok none, .ok (), .ok ()⟩ "1" "t").1 =
      ⟨"1", some "t", "error", "boom"⟩
    ∧ (sync_contact_to_partner
        ⟨.ok (some ⟨[("email", .str "a@x.com")]⟩), .exn "s-fail", .ok (), .ok ()⟩
        "2" "t").1 = ⟨"2", some "t", "error", "s-fail"⟩
    ∧ (sync_contact_to_partner
        ⟨.ok (some ⟨[("email", .str "a@x.com")]⟩), .ok (some ⟨"9"⟩), .exn "u-fail", .ok ()⟩
        "3" "t").1 = ⟨"3", some "t", "error", "u-fail"⟩
    ∧ (sync_contact_to_partner
        ⟨.ok (some ⟨[("email", .str "a@x.com")]⟩), .ok none, .ok (), .exn "c-fail"⟩
        "4" "t").1 = ⟨"4", some "t", "error", "c-fail"⟩
    ∧ verify_hubspot_signature (fun _ _ => "x") (fun _ => "x") ⟨false, "sec"⟩
        ⟨none, none, none, "POST", "u", "b"⟩ = .reject "Missing signature"
    ∧ (verify_hubspot_signature (fun _ _ => "x") (fun _ => "x") ⟨true, ""⟩
        ⟨none, none, none, "POST", "u", "b"⟩ = .proceed
      ∧ (ParseOutcome.failed "bad" : ParseOutcome) = .failed "bad") :=
  ⟨per_event_failures_isolated.1 _ "1" "t" "boom" rfl,
   per_event_failures_isolated.2.1 _ ⟨[("email", .str "a@x.com")]⟩ "2" "t"
     "s-fail" rfl (by decide) rfl,
   per_event_failures_isolated.2.2.1 _ ⟨[("email", .str "a@x.com")]⟩ ⟨"9"⟩
     "3" "t" "u-fail" rfl (by decide) rfl rfl,
   per_event_failures_isolated.2.2.2.1 _ ⟨[("email", .str "a@x.com")]⟩
     "4" "t" "c-fail" rfl (by decide) rfl rfl,
   per_event_failures_isolated.2.2.2.2.2.2.1 (fun _ _ => "x") (fun _ => "x")
     ⟨false, "sec"⟩ ⟨none, none, none, "POST", "u", "b"⟩ [] wQuiet
     (.parsed []) "Missing signature" rfl,
   per_event_failures_isolated.2.2.2.2.2.2.2 (fun _ _ => "x") (fun _ => "x")
     ⟨true, ""⟩ ⟨none, none, none, "POST", "u", "b"⟩ [] wQuiet
     (.failed "bad") "bad" rfl⟩

/-- C8: with verification enabled (skip flag unset, secret non-empty), an
invalid v3 signature — or missing signature headers with no valid v1
fallback — makes the endpoint reply 401 with an error body and issue zero
CRM calls. -/
theorem webhook_signature_reject (hm : String → String → String)
    (sh : String → String) (cfg : SigConfig) (req : RequestData)
    (formFilter : List String) (w : String → World) (parsed : ParseOutcome)
    (hskip : cfg.SKIP_SIGNATURE_VERIFICATION = false)
    (hsecret : cfg.CLIENT_SECRET ≠ "") :
    (headerTruthy req.sigV3 = true → headerTruthy req.timestamp = true →
      hm cfg.CLIENT_SECRET (req.method ++ req.url ++ req.body ++ req.timestamp.getD "")
          ≠ req.sigV3.getD "" →
      webhook_endpoint hm sh cfg req formFilter w parsed =
        (.unauthorized "Invalid signature", []))
    ∧ ((headerTruthy req.sigV3 = false ∨ headerTruthy req.timestamp = false) →
      (∀ s1, req.sigV1 = some s1 →
        ¬(s1 ≠ "" ∧ sh (cfg.CLIENT_SECRET ++ req.body) = s1)) →
      webhook_endpoint hm sh cfg req formFilter w parsed =
        (.unauthorized "Missing signature", [])) := by
  constructor
  · intro h3 ht hne
    have hv : verify_hubspot_signature hm sh cfg req = .reject "Invalid signature" := by
      simp [verify_hubspot_signature, hskip, hsecret, h3, ht, hne]
    simp [webhook_endpoint, hv]
  · intro hmiss hv1
    have hv : verify_hubspot_signature hm sh cfg req = .reject "Missing signature" := by
      have hand : (headerTruthy req.sigV3 && headerTruthy req.timestamp) = false := by
        rcases hmiss with h | h <;> simp [h]
      cases h1 : req.sigV1 with
      | none => simp [verify_hubspot_signature, hskip, hsecret, hand, h1]
      | some s1 =>
        have hno := hv1 s1 h1
        simp [verify_hubspot_signature, hskip, hsecret, hand, h1, hno]
    simp [webhook_endpoint, hv]

/-- Witness for C8: a wrong v3 signature and a header-free request, both at
a concrete configured secret, reply 401 with no CRM calls. -/
theorem webhook_signature_reject_witness :
    webhook_endpoint (fun _ _ => "good") (fun _ => "good") ⟨false, "sec"⟩
      ⟨some "bad", some "11", none, "POST", "u", "b"⟩ [] wQuiet (.parsed []) =
      (.unauthorized "Invalid signature", [])
    ∧ webhook_endpoint (fun _ _ => "good") (fun _ => "good") ⟨false, "sec"⟩
      ⟨none, none, none, "POST", "u", "b"⟩ [] wQuiet (.parsed []) =
      (.unauthorized "Missing signature", []) :=
  ⟨(webhook_signature_reject (fun _ _ => "good") (fun _ => "good") ⟨false, "sec"⟩
      ⟨some "bad", some "11", none, "POST", "u", "b"⟩ [] wQuiet (.parsed [])
      rfl (by decide)).1 (by decide) (by decide) (by decide),
   (webhook_signature_reject (fun _ _ => "good") (fun _ => "good") ⟨false, "sec"⟩
      ⟨none, none, none, "POST", "u", "b"⟩ [] wQuiet (.parsed [])
      rfl (by decide)).2 (.inl (by decide)) (fun s1 h => Option.noConfusion h)⟩

/-- C10: with an empty CLIENT_SECRET and the skip flag false, the decorator
performs no verification: the decision is `proceed` for every request —
whatever its headers — so the endpoint never replies 401 and a parseable
body is processed normally. -/
theorem no_secret_skips_verification (hm : String → String → String)
    (sh : String → String) (req : RequestData) (formFilter : List String)
    (w : String → World) :
    verify_hubspot_signature hm sh ⟨false, ""⟩ req = .proceed
    ∧ (∀ (parsed : ParseOutcome) (e : String),
        (webhook_endpoint hm sh ⟨false, ""⟩ req formFilter w parsed).1 ≠
          .unauthorized e)
    ∧ (∀ events : List Event,
        webhook_endpoint hm sh ⟨false, ""⟩ req formFilter w (.parsed events) =
          (.okJson (hubspot_webhook formFilter w events).1,
            (hubspot_webhook formFilter w events).2)) := by
  have hv : verify_hubspot_signature hm sh ⟨false, ""⟩ req = .proceed := by
    simp [verify_hubspot_signature]
  refine ⟨hv, ?_, ?_⟩
  · intro parsed e
    cases parsed <;> simp [webhook_endpoint, hv]
  · intro events
    simp [webhook_endpoint, hv]

/-- Witness for C10: a request carrying a wrong v3 signature is still
accepted when the secret is empty. -/
theorem no_secret_skips_verification_witness :
    verify_hubspot_signature (fun _ _ => "x") (fun _ => "y") ⟨false, ""⟩
      ⟨some "wrong", some "1", none, "POST", "u", "b"⟩ = .proceed
    ∧ (webhook_endpoint (fun _ _ => "x") (fun _ => "y") ⟨false, ""⟩
        ⟨some "wrong", some "1", none, "POST", "u", "b"⟩ [] wQuiet
        (.parsed [])).1 ≠ .unauthorized "Invalid signature" :=
  ⟨(no_secret_skips_verification (fun _ _ => "x") (fun _ => "y")
      ⟨some "wrong", some "1", none, "POST", "u", "b"⟩ [] wQuiet).1,
   (no_secret_skips_verification (fun _ _ => "x") (fun _ => "y")
      ⟨some "wrong", some "1", none, "POST", "u", "b"⟩ [] wQuiet).2.1
     (.parsed []) "Invalid signature"⟩

/-- One HTTP attempt's result inside `_request` (lines 131-155): a 2xx
response with its decoded body, a 429 with its parsed Retry-After header
(absent header gives `none`), or a raised `RequestException` — a non-2xx
non-429 via `raise_for_status`, or a network error. -/
inductive HttpResponse where
  | ok (body : List (String × Value))
  | rateLimited (retryAfter : Option Nat)
  | fail (msg : String)
deriving DecidableEq, Repr

/-- What `_request` does in the end: return a decoded body or re-raise. -/
inductive ReqOutcome where
  | returned (body : List (String × Value))
  | raised (msg : String)
deriving DecidableEq, Repr

/-- The retry loop of `_request` (lines 131-157) over the sequence of
attempt results `resp`: final outcome, the `time.sleep` durations in order,
and the number of HTTP calls issued. The fuel is the number of loop
iterations left; a 429 sleeps the Retry-After value (default 10) and
continues — on the last iteration the `continue` exits the loop and the
function returns `{}` (line 157); an exception sleeps `2 ^ attempt` and
retries unless this was the last iteration, in which case it re-raises. -/
def requestGo (resp : Nat → HttpResponse) (attempt : Nat) :
    Nat → ReqOutcome × List Nat × Nat
  | 0 => (.returned [], [], 0)
  | fuel + 1 =>
    match resp attempt with
    | .ok body => (.returned body, [], 1)
    | .rateLimited ra =>
      let r := requestGo resp (attempt + 1) fuel
      (r.1, (ra.getD 10) :: r.2.1, r.2.2 + 1)
    | .fail m =>
      if fuel = 0 then (.raised m, [], 1)
      else
        let r := requestGo resp (attempt + 1) fuel
        (r.1, (2 ^ attempt) :: r.2.1, r.2.2 + 1)

/-- `HubSpotAPI._request`, whose callers all use the default `retries = 3`. -/
def HubSpotAPI.request (resp : Nat → HttpResponse) (retries : Nat) :
    ReqOutcome × List Nat × Nat :=
  requestGo resp 0 retries

theorem requestGo_calls_le (resp : Nat → HttpResponse) :
    ∀ (fuel attempt : Nat), (requestGo resp attempt fuel).2.2 ≤ fuel := by
  intro fuel
  induction fuel with
  | zero => intro attempt; simp [requestGo]
  | succ n ih =>
    intro attempt
    cases hr : resp attempt with
    | ok body => simp [requestGo, hr]
    | rateLimited ra =>
      simp only [requestGo, hr]
      have := ih (attempt + 1)
      omega
    | fail m =>
      by_cases hf : n = 0
      · simp [requestGo, hr, hf]
      · simp only [requestGo, hr, if_neg hf]
        have := ih (attempt + 1)
        omega

theorem requestGo_raised (resp : Nat → HttpResponse) :
    ∀ (fuel attempt : Nat) (m : String),
      (requestGo resp attempt fuel).1 = .raised m →
      ∃ i, attempt ≤ i ∧ i < attempt + fuel ∧ resp i = .fail m := by
  intro fuel
  induction fuel with
  | zero => intro attempt m h; simp [requestGo] at h
  | succ n ih =>
    intro attempt m h
    cases hr : resp attempt with
    | ok body => simp [requestGo, hr] at h
    | rateLimited ra =>
      simp only [requestGo, hr] at h
      rcases ih (attempt + 1) m h with ⟨i, h1, h2, h3⟩
      exact ⟨i, by omega, by omega, h3⟩
    | fail m2 =>
      by_cases hf : n = 0
      · simp [requestGo, hr, hf] at h
        exact ⟨attempt, le_refl _, by omega, by rw [hr, h]⟩
      · simp only [requestGo, hr, if_neg hf] at h
        rcases ih (attempt + 1) m h with ⟨i, h1, h2, h3⟩
        exact ⟨i, by omega, by omega, h3⟩

/-- C4: a 429 on the first attempt makes the client sleep exactly the
Retry-After duration and reissue the same call, returning the second
attempt's successful body after 2 HTTP calls; the number of HTTP calls
never exceeds `retries` (3 at every call site); and a raised message always
comes from a `fail` attempt (non-2xx non-429 or network error), so a 429 is
never surfaced to the caller as an error. -/
theorem rate_limit_retry_correct :
    (∀ (resp : Nat → HttpResponse) (ra : Nat) (b : List (String × Value)),
      resp 0 = .rateLimited (some ra) → resp 1 = .ok b →
      HubSpotAPI.request resp 3 = (.returned b, [ra], 2))
    ∧ (∀ (resp : Nat → HttpResponse) (retries : Nat),
        (HubSpotAPI.request resp retries).2.2 ≤ retries)
    ∧ (∀ (resp : Nat → HttpResponse) (retries : Nat) (m : String),
        (HubSpotAPI.request resp retries).1 = .raised m →
        ∃ i, i < retries ∧ resp i = .fail m) := by
  refine ⟨?_, ?_, ?_⟩
  · intro resp ra b h0 h1
    simp [HubSpotAPI.request, requestGo, h0, h1]
  · intro resp retries
    exact requestGo_calls_le resp retries 0
  · intro resp retries m h
    rcases requestGo_raised resp retries 0 m h with ⟨i, _, h2, h3⟩
    exact ⟨i, by omega, h3⟩

/-- Witness for C4 at concrete attempt sequences: a 429 then a success, and
a permanently failing endpoint. -/
theorem rate_limit_retry_correct_witness :
    HubSpotAPI.request
      (fun n => if n = 0 then .rateLimited (some 5) else .ok [("a", .str "1")]) 3 =
      (.returned [("a", .str "1")], [5], 2)
    ∧ (HubSpotAPI.request (fun _ => .fail "down") 3).2.2 ≤ 3
    ∧ (∃ i, i < 3 ∧ (fun _ => HttpResponse.fail "down") i = .fail "down") :=
  ⟨rate_limit_retry_correct.1
      (fun n => if n = 0 then .rateLimited (some 5) else .ok [("a", .str "1")])
      5 [("a", .str "1")] rfl rfl,
   rate_limit_retry_correct.2.1 (fun _ => .fail "down") 3,
   rate_limit_retry_correct.2.2 (fun _ => .fail "down") 3 "down" (by decide)⟩
